import Mathlib

/-
Verification development for the FinOps Watchtower dashboard client.

The repository is a browser dashboard over a remote anomaly-detection API:
a transport client (src/lib/api.ts), a run-list view (Home) and a run-detail
view (RunDetail.tsx).  This file shallowly embeds the client-side data model,
the transport operations and the view logic, and proves the contracted
properties about them.  Network effects are made explicit: every operation
returns the list of HTTP requests it issues together with its result, so
single-attempt / no-request claims are statements about those lists.
-/

namespace Watchtower

/-! ## JSON values

JavaScript JSON values, used for the dynamic payloads (`row: any`, pasted
rows).  Arrays and objects are represented by the mutually inductive
`JsonElems` / `JsonFields` spines so that all functions on values are
structurally recursive and kernel-evaluable. -/

mutual
/-- A JavaScript JSON value (null, boolean, number, string, array, object).
Numbers are modelled as integers: the claims only exercise integer numerals,
and the numeric grammar below is restricted accordingly. -/
inductive JsonVal where
  | null
  | bool (b : Bool)
  | num (n : Int)
  | str (s : String)
  | arr (elems : JsonElems)
  | obj (fields : JsonFields)

/-- Spine of a JSON array. -/
inductive JsonElems where
  | nil
  | cons (head : JsonVal) (tail : JsonElems)

/-- Spine of a JSON object: ordered key/value fields. -/
inductive JsonFields where
  | nil
  | cons (key : String) (val : JsonVal) (tail : JsonFields)
end

/-- Discriminates arrays, as `Array.isArray` does in the source. -/
def JsonVal.isArr : JsonVal → Bool
  | JsonVal.arr _ => true
  | _ => false

/-! ## A model of the host `JSON.parse`

The source calls the browser builtin `JSON.parse`.  It is modelled here as a
recursive-descent parser over the character list, faithful to ECMA-404 for
the constructs the payloads use, with two declared restrictions: numerals
are integers (a fraction or exponent makes the parse fail rather than yield
a float) and `\uXXXX` string escapes are not recognised.  The fuel argument
is a termination artifact; `jsonParse` supplies more fuel than any input can
consume. -/

/-- Whitespace characters insignificant in JSON (space, tab, LF, CR). -/
def jsonWs (c : Char) : Bool := c = ' ' || c = '\t' || c = '\n' || c = '\r'

/-- Drops leading JSON whitespace. -/
def skipWs (cs : List Char) : List Char := cs.dropWhile jsonWs

/-- ASCII digit test. -/
def isDigitCh (c : Char) : Bool := '0' ≤ c && c ≤ '9'

/-- Value of a digit string, most significant first. -/
def digitsToNat (ds : List Char) : Nat := ds.foldl (fun a c => 10 * a + (c.toNat - 48)) 0

/-- Parses a JSON integer numeral: a nonempty digit run without a redundant
leading zero, not followed by a fraction or exponent. -/
def parseNatNum (cs : List Char) : Option (Nat × List Char) :=
  let ds := cs.takeWhile isDigitCh
  let rest := cs.dropWhile isDigitCh
  match ds with
  | [] => none
  | d :: ds2 =>
    if d = '0' && ds2 ≠ [] then none
    else match rest with
      | c :: _ => if c = '.' || c = 'e' || c = 'E' then none else some (digitsToNat ds, rest)
      | [] => some (digitsToNat ds, rest)

/-- Parses the body of a JSON string after the opening quote, handling the
single-character escapes; returns the content and the input after the
closing quote. -/
def parseStringAux : List Char → Option (List Char × List Char)
  | [] => none
  | c :: cs =>
    if c = '\"' then some ([], cs)
    else if c = '\\' then
      match cs with
      | [] => none
      | e :: cs2 =>
        let esc : Option Char :=
          if e = '\"' then some '\"'
          else if e = '\\' then some '\\'
          else if e = '/' then some '/'
          else if e = 'n' then some '\n'
          else if e = 't' then some '\t'
          else if e = 'r' then some '\r'
          else if e = 'b' then some (Char.ofNat 8)
          else if e = 'f' then some (Char.ofNat 12)
          else none
        match esc with
        | some ch => (parseStringAux cs2).map (fun r => (ch :: r.1, r.2))
        | none => none
    else if c.toNat < 32 then none
    else (parseStringAux cs).map (fun r => (c :: r.1, r.2))

/-- Parser modes: a single value, the rest of a nonempty array (elements
until `]`), or the rest of a nonempty object (fields until the closing
brace). -/
inductive PMode where
  | value
  | arrRest
  | objRest

/-- Parser results, one constructor per mode. -/
inductive PRes where
  | v (x : JsonVal)
  | elems (xs : JsonElems)
  | fields (fs : JsonFields)

/-- The recursive-descent core of the `JSON.parse` model.  One unit of fuel
is spent per recursive step, keeping the definition structurally recursive
on `Nat` and hence kernel-evaluable. -/
def parseF (fuel : Nat) : PMode → List Char → Option (PRes × List Char) :=
  match fuel with
  | 0 => fun _ _ => none
  | fuel + 1 => fun mode cs =>
    match mode with
    | PMode.value =>
      match skipWs cs with
      | [] => none
      | c :: rest =>
        if c = '\x7b' then
          match skipWs rest with
          | '\x7d' :: cs3 => some (PRes.v (JsonVal.obj JsonFields.nil), cs3)
          | cs2 =>
            match parseF fuel PMode.objRest cs2 with
            | some (PRes.fields fs, cs3) => some (PRes.v (JsonVal.obj fs), cs3)
            | _ => none
        else if c = '[' then
          match skipWs rest with
          | ']' :: cs3 => some (PRes.v (JsonVal.arr JsonElems.nil), cs3)
          | cs2 =>
            match parseF fuel PMode.arrRest cs2 with
            | some (PRes.elems xs, cs3) => some (PRes.v (JsonVal.arr xs), cs3)
            | _ => none
        else if c = '\"' then
          match parseStringAux rest with
          | some (content, cs2) => some (PRes.v (JsonVal.str (String.mk content)), cs2)
          | none => none
        else if c = 't' then
          match rest with
          | 'r' :: 'u' :: 'e' :: cs2 => some (PRes.v (JsonVal.bool true), cs2)
          | _ => none
        else if c = 'f' then
          match rest with
          | 'a' :: 'l' :: 's' :: 'e' :: cs2 => some (PRes.v (JsonVal.bool false), cs2)
          | _ => none
        else if c = 'n' then
          match rest with
          | 'u' :: 'l' :: 'l' :: cs2 => some (PRes.v JsonVal.null, cs2)
          | _ => none
        else if c = '-' then
          match parseNatNum rest with
          | some (n, cs2) => some (PRes.v (JsonVal.num (-(n : Int))), cs2)
          | none => none
        else if isDigitCh c then
          match parseNatNum (c :: rest) with
          | some (n, cs2) => some (PRes.v (JsonVal.num (n : Int)), cs2)
          | none => none
        else none
    | PMode.arrRest =>
      match parseF fuel PMode.value cs with
      | some (PRes.v x, cs2) =>
        match skipWs cs2 with
        | ']' :: cs4 => some (PRes.elems (JsonElems.cons x JsonElems.nil), cs4)
        | ',' :: cs4 =>
          match parseF fuel PMode.arrRest cs4 with
          | some (PRes.elems xs, cs5) => some (PRes.elems (JsonElems.cons x xs), cs5)
          | _ => none
        | _ => none
      | _ => none
    | PMode.objRest =>
      match skipWs cs with
      | '\"' :: rest =>
        match parseStringAux rest with
        | some (key, cs2) =>
          match skipWs cs2 with
          | ':' :: cs3 =>
            match parseF fuel PMode.value cs3 with
            | some (PRes.v x, cs4) =>
              match skipWs cs4 with
              | '\x7d' :: cs5 => some (PRes.fields (JsonFields.cons (String.mk key) x JsonFields.nil), cs5)
              | ',' :: cs5 =>
                match parseF fuel PMode.objRest cs5 with
                | some (PRes.fields fs, cs6) => some (PRes.fields (JsonFields.cons (String.mk key) x fs), cs6)
                | _ => none
              | _ => none
            | _ => none
          | _ => none
        | none => none
      | _ => none

/-- Models `JSON.parse`: parses one value and requires only whitespace to
remain; `none` models the thrown `SyntaxError`. -/
def jsonParse (s : String) : Option JsonVal :=
  match parseF (2 * s.data.length + 2) PMode.value s.data with
  | some (PRes.v x, rest) => if skipWs rest = [] then some x else none
  | _ => none

/-! ## A model of `JSON.stringify(v, null, 2)` -/

/-- Quotes and escapes a string as `JSON.stringify` renders string values. -/
def quoteJsonString (s : String) : String :=
  "\"" ++ String.join (s.data.map (fun c =>
    if c = '\"' then "\\\""
    else if c = '\\' then "\\\\"
    else if c = '\n' then "\\n"
    else if c = '\t' then "\\t"
    else if c = '\r' then "\\r"
    else String.mk [c])) ++ "\""

/-- Indentation produced by the gap argument `2` at nesting depth `d`. -/
def indentStr (d : Nat) : String := String.mk (List.replicate (2 * d) ' ')

mutual
/-- Models `JSON.stringify(v, null, 2)` at nesting depth `d`: two-space
indentation, `": "` after keys, elements separated by `",\n"`, empty arrays
and objects rendered inline. -/
def stringifyVal (d : Nat) : JsonVal → String
  | JsonVal.null => "null"
  | JsonVal.bool b => if b then "true" else "false"
  | JsonVal.num n => toString n
  | JsonVal.str s => quoteJsonString s
  | JsonVal.arr JsonElems.nil => "[]"
  | JsonVal.arr xs => "[\n" ++ stringifyElems (d + 1) xs ++ "\n" ++ indentStr d ++ "]"
  | JsonVal.obj JsonFields.nil => "\x7b\x7d"
  | JsonVal.obj fs => "\x7b\n" ++ stringifyFields (d + 1) fs ++ "\n" ++ indentStr d ++ "\x7d"

/-- Renders array elements, one per line at depth `d`, comma separated. -/
def stringifyElems (d : Nat) : JsonElems → String
  | JsonElems.nil => ""
  | JsonElems.cons x JsonElems.nil => indentStr d ++ stringifyVal d x
  | JsonElems.cons x xs => indentStr d ++ stringifyVal d x ++ ",\n" ++ stringifyElems d xs

/-- Renders object fields, one per line at depth `d`, comma separated. -/
def stringifyFields (d : Nat) : JsonFields → String
  | JsonFields.nil => ""
  | JsonFields.cons k v JsonFields.nil => indentStr d ++ quoteJsonString k ++ ": " ++ stringifyVal d v
  | JsonFields.cons k v fs =>
      indentStr d ++ quoteJsonString k ++ ": " ++ stringifyVal d v ++ ",\n" ++ stringifyFields d fs
end

/-- Models the top-level call `JSON.stringify(v, null, 2)`. -/
def jsonStringify2 (v : JsonVal) : String := stringifyVal 0 v

/-! ## RunDetail.tsx: formatJson -/

/-- Embeds `formatJson` from RunDetail.tsx: a string payload is parsed as
JSON and re-serialised with two-space indentation; if the parse throws, the
catch branch returns `String(obj)`, which for a string is the string itself.
A non-string payload is serialised directly. -/
def formatJson (obj : JsonVal) : String :=
  match obj with
  | JsonVal.str s =>
    match jsonParse s with
    | some parsed => jsonStringify2 parsed
    | none => s
  | v => jsonStringify2 v

/-! ## Data model (the interfaces of src/lib/api.ts)

Optional interface properties become `Option`; `undefined` is `none`. -/

/-- A detected finding, as in the `Finding` interface. -/
structure Finding where
  index : Option Nat := none
  type : String
  reason : String
  row : Option JsonVal := none

/-- An analysis run, as in the `Run` interface. -/
structure Run where
  id : String
  createdAt : String
  source : Option String := none
  rowCount : Option Nat := none
  explain : Option Bool := none
  coverage : Option (List String) := none
  explanation : Option String := none
  findings : Option (List Finding) := none

/-- Response shape of `GET /runs`. -/
structure ListRunsResponse where
  ok : Bool
  nextCursor : Option String := none
  runs : List Run

/-- Response shape of `GET /runs/:id`. -/
structure GetRunResponse where
  ok : Bool
  run : Run

/-- Response shape of `POST /run`. -/
structure CreateRunResponse where
  ok : Bool
  runId : String

/-! ## HTTP embedding

A backend response carries the HTTP status, the status text and a typed
body (per the backend contract the body deserialises to the operation's
response shape; `exportRunCsv` receives the raw blob as a string).  Each
transport operation returns the list of requests it issues paired with its
result, so request-counting claims are about that list; a thrown error is
`Except.error` carrying the message. -/

/-- A backend response as observed through `fetch`. -/
structure FetchResponse (B : Type) where
  status : Nat
  statusText : String
  body : B

/-- The `Response.ok` predicate of fetch: status in the 2xx success range. -/
def respOk (status : Nat) : Bool := 200 ≤ status && status ≤ 299

/-- An uploaded file, kept opaque (name and contents). -/
structure FileBlob where
  name : String
  content : String

/-- Request payloads: none, the JSON body of `createRunFromRows`, or the
multipart form of `createRunFromFile` (whose `explain` part is appended
only when the flag is defined). -/
inductive RequestBody where
  | empty
  | jsonRows (rows : List JsonVal) (explain : Option Bool)
  | formFile (file : FileBlob) (explain : Option Bool)

/-- An outbound HTTP request. -/
structure HttpRequest where
  url : String
  method : String
  headers : List (String × String)
  body : RequestBody

/-- The development fallback of `VITE_API_URL`. -/
def API_URL : String := "http://localhost:8787/api/v1"

/-- The development fallback of `VITE_WATCHTOWER_SECRET`. -/
def SECRET : String := "dev-secret"

/-- Embeds `getHeaders`: the static shared-secret header. -/
def getHeaders : List (String × String) := [("x-watchtower-secret", SECRET)]

/-- Query parameters built by `listRuns`.  The source guards each append
with JavaScript truthiness (`if (limit)`, `if (cursor)`), so a zero limit
or an empty cursor string is dropped. -/
def listRunsParams (limit : Option Nat) (cursor : Option String) : List (String × String) :=
  (match limit with
   | some l => if l ≠ 0 then [("limit", toString l)] else []
   | none => []) ++
  (match cursor with
   | some c => if c ≠ "" then [("cursor", c)] else []
   | none => [])

/-- Serialises query parameters as `URLSearchParams.toString` does
(`k=v` pairs joined by `&`; percent-encoding is the identity on the
unreserved characters these values use). -/
def paramsToString (ps : List (String × String)) : String :=
  String.intercalate "&" (ps.map (fun p => p.1 ++ "=" ++ p.2))

/-- URL built by `listRuns`: the query string is attached only when the
serialised parameters are nonempty. -/
def listRunsUrl (limit : Option Nat) (cursor : Option String) : String :=
  API_URL ++ "/runs" ++
    (if paramsToString (listRunsParams limit cursor) = "" then ""
     else "?" ++ paramsToString (listRunsParams limit cursor))

/-- Embeds `listRuns`: one GET request; a non-ok response becomes a thrown
error embedding the status text, an ok response yields the JSON body. -/
def listRuns (limit : Option Nat) (cursor : Option String)
    (response : FetchResponse ListRunsResponse) :
    List HttpRequest × Except String ListRunsResponse :=
  ([⟨listRunsUrl limit cursor, "GET", getHeaders, RequestBody.empty⟩],
   if respOk response.status then Except.ok response.body
   else Except.error ("Failed to list runs: " ++ response.statusText))

/-- Embeds `getRun`: one GET request to `/runs/:id`. -/
def getRun (runId : String) (response : FetchResponse GetRunResponse) :
    List HttpRequest × Except String GetRunResponse :=
  ([⟨API_URL ++ "/runs/" ++ runId, "GET", getHeaders, RequestBody.empty⟩],
   if respOk response.status then Except.ok response.body
   else Except.error ("Failed to get run: " ++ response.statusText))

/-- Embeds `createRunFromRows`: one POST request with the JSON body
`(rows, explain)` and a JSON content type. -/
def createRunFromRows (rows : List JsonVal) (explain : Option Bool)
    (response : FetchResponse CreateRunResponse) :
    List HttpRequest × Except String CreateRunResponse :=
  ([⟨API_URL ++ "/run", "POST", getHeaders ++ [("Content-Type", "application/json")],
     RequestBody.jsonRows rows explain⟩],
   if respOk response.status then Except.ok response.body
   else Except.error ("Failed to create run: " ++ response.statusText))

/-- Embeds `createRunFromFile`: one POST request with the multipart form. -/
def createRunFromFile (file : FileBlob) (explain : Option Bool)
    (response : FetchResponse CreateRunResponse) :
    List HttpRequest × Except String CreateRunResponse :=
  ([⟨API_URL ++ "/run", "POST", getHeaders, RequestBody.formFile file explain⟩],
   if respOk response.status then Except.ok response.body
   else Except.error ("Failed to create run from file: " ++ response.statusText))

/-- A browser download side effect (the anchor-click sequence). -/
structure DownloadAction where
  filename : String
  content : String

/-- Result of `exportRunCsv`: the requests issued, the downloads actually
triggered, and the thrown-or-returned outcome. -/
structure ExportOutcome where
  requests : List HttpRequest
  downloads : List DownloadAction
  result : Except String Unit

/-- Embeds `exportRunCsv`: one GET request; on a non-ok response it throws
before reading the blob or touching the DOM, so no download happens; on an
ok response it downloads the blob as `run-<runId>.csv`. -/
def exportRunCsv (runId : String) (response : FetchResponse String) : ExportOutcome :=
  let req : HttpRequest :=
    ⟨API_URL ++ "/runs/" ++ runId ++ "/export.csv", "GET", getHeaders, RequestBody.empty⟩
  if respOk response.status then
    ⟨[req], [⟨"run-" ++ runId ++ ".csv", response.body⟩], Except.ok ()⟩
  else
    ⟨[req], [], Except.error ("Failed to export CSV: " ++ response.statusText)⟩

/-! ## Run list view (Home, src/pages)

The list is driven by `useInfiniteQuery` (TanStack Query v5): fetched pages
accumulate in order into `data.pages`; `getNextPageParam` reads
`lastPage.nextCursor`; `hasNextPage` is true exactly when that value is
defined; `fetchNextPage` invokes the query function with that value as
`pageParam`, and the query function calls `listRuns(20, pageParam)`. -/

/-- Embeds `getNextPageParam: (lastPage) => lastPage.nextCursor`. -/
def getNextPageParam (lastPage : ListRunsResponse) : Option String := lastPage.nextCursor

/-- The `hasNextPage` flag of the infinite query: defined `getNextPageParam`
of the most recently fetched page. -/
def hasNextPage (pages : List ListRunsResponse) : Bool :=
  match pages.getLast? with
  | some p => (getNextPageParam p).isSome
  | none => false

/-- Embeds `data?.pages.flatMap(page => page.runs)`: the displayed flattened
run sequence. -/
def flattenRuns (pages : List ListRunsResponse) : List Run :=
  pages.flatMap (fun page => page.runs)

/-- Embeds the settled render branch around the load-more button:
`runs.length === 0 ? "No runs yet" : (... hasNextPage && <Button/>)` —
with no accumulated runs the view shows the empty-state text and offers no
control; otherwise the button renders under the `hasNextPage` guard. -/
def showLoadMore (pages : List ListRunsResponse) : Bool :=
  if (flattenRuns pages).length = 0 then false else hasNextPage pages

/-- Argument pair the Home query function hands to `listRuns`:
`listRuns(20, pageParam)`. -/
def homeQueryArgs (pageParam : Option String) : Option Nat × Option String :=
  (some 20, pageParam)

/-- Models a `fetchNextPage` action: when the next page param is defined the
query function runs with it, so `listRuns` receives `(20, cursor)`; when it
is undefined no fetch happens. -/
def fetchNextPageArgs (pages : List ListRunsResponse) : Option (Option Nat × Option String) :=
  match pages.getLast? with
  | some p => (getNextPageParam p).map (fun cur => homeQueryArgs (some cur))
  | none => none

/-- A toast notification as raised by the views. -/
structure Toast where
  title : String
  description : Option String := none
  destructive : Bool := false

/-- Spine-to-list conversion for parsed JSON arrays. -/
def JsonElems.toList : JsonElems → List JsonVal
  | JsonElems.nil => []
  | JsonElems.cons x xs => x :: JsonElems.toList xs

/-- Models the host `JSON.parse` as called by `handleJsonSubmit`, with the
thrown `SyntaxError` carried as `Except.error`; the message text models the
host-specific `SyntaxError` message. -/
def jsParse (s : String) : Except String JsonVal :=
  match jsonParse s with
  | some v => Except.ok v
  | none => Except.error "Unexpected token in JSON"

/-- Observable outcome of a run-creation submission: the HTTP requests
issued, the `createRunFromRows` invocations made (arguments recorded), the
toast raised, and the navigation target if any. -/
structure SubmitOutcome where
  requests : List HttpRequest
  rowsCalls : List (List JsonVal × Option Bool)
  toast : Toast
  navigatedTo : Option String

/-- Embeds `handleJsonSubmit` from Home.  The guard `if (!jsonText.trim())`
holds exactly when every character of the text is whitespace.  Then the
text is parsed; a parse failure is caught and surfaced.  A parsed non-array
throws `"JSON must be an array of rows"`, caught by the same handler,
before `createRunFromRows` is ever invoked.  A parsed array is submitted;
success navigates to the new run, failure surfaces the thrown message. -/
def handleJsonSubmit (jsonText : String) (explain : Bool)
    (response : FetchResponse CreateRunResponse) : SubmitOutcome :=
  if jsonText.data.all jsonWs then
    ⟨[], [], ⟨"No JSON provided", none, true⟩, none⟩
  else
    match jsParse jsonText with
    | Except.error msg => ⟨[], [], ⟨"Failed to create run", some msg, true⟩, none⟩
    | Except.ok (JsonVal.arr xs) =>
      let rows := JsonElems.toList xs
      let call := createRunFromRows rows (some explain) response
      match call.2 with
      | Except.ok r =>
        ⟨call.1, [(rows, some explain)], ⟨"Run created successfully", none, false⟩,
         some ("/run/" ++ r.runId)⟩
      | Except.error msg =>
        ⟨call.1, [(rows, some explain)], ⟨"Failed to create run", some msg, true⟩, none⟩
    | Except.ok _ =>
      ⟨[], [], ⟨"Failed to create run", some "JSON must be an array of rows", true⟩, none⟩

/-- Embeds `handleExport` (Home and RunDetail share the contract): the
export is awaited; success and failure raise the corresponding toast, and
the export outcome (requests, downloads) is observable alongside. -/
def handleExport (runId : String) (response : FetchResponse String) : Toast × ExportOutcome :=
  let out := exportRunCsv runId response
  match out.result with
  | Except.ok _ => (⟨"CSV exported successfully", none, false⟩, out)
  | Except.error msg => (⟨"Failed to export CSV", some msg, true⟩, out)

/-! ## Run detail view (RunDetail.tsx) -/

/-- Terminal render states of the detail view (the transient loading state
is not reachable in the settled semantics modelled here). -/
inductive DetailViewState where
  | errorView (message : String)
  | contentView (run : Run)

/-- Embeds the RunDetail component under TanStack Query v5 semantics.  The
query is declared with `enabled: !!runId`: for an absent or empty
identifier the query is disabled, its query function (and hence the guard
that would throw `"No run ID provided"`) never runs, no request is issued,
`error` stays null and `data` undefined, and `isLoading`
(`isPending && isFetching`) is false — so the view falls through to the
error panel with the fallback message `"Failed to load run details"`.  For
a nonempty identifier the query runs `getRun`; a thrown error renders the
error panel with its message, success renders the run content. -/
def runDetailView (runId : Option String) (response : FetchResponse GetRunResponse) :
    List HttpRequest × DetailViewState :=
  match runId with
  | none => ([], DetailViewState.errorView "Failed to load run details")
  | some s =>
    if s = "" then ([], DetailViewState.errorView "Failed to load run details")
    else
      let call := getRun s response
      match call.2 with
      | Except.error msg => (call.1, DetailViewState.errorView msg)
      | Except.ok r => (call.1, DetailViewState.contentView r.run)

/-- Embeds the guard of the AI-explanation card,
`run.explain && run.explanation && <Card .../>`: the card renders exactly
when `explain` is truthy and `explanation` is a defined nonempty string. -/
def showExplanationPanel (run : Run) : Bool :=
  (match run.explain with | some b => b | none => false) &&
  (match run.explanation with | some s => s != "" | none => false)

/-- Embeds the index cell of the findings table,
`finding.index ?? idx` over `run.findings.map((finding, idx) => ...)`:
the displayed index of each finding, in render order. -/
def displayedIndices (findings : List Finding) : List Nat :=
  findings.enum.map (fun p => p.2.index.getD p.1)

/-! ## Substring containment

Used to state that thrown messages embed the HTTP status text. -/

/-- Boolean substring test: some suffix of `hay` starts with `needle`. -/
def strContains (hay needle : String) : Bool :=
  (List.range (hay.data.length + 1)).any (fun i => needle.data.isPrefixOf (hay.data.drop i))

/-- Key-presence test on a query parameter list. -/
def hasParam (ps : List (String × String)) (k : String) : Bool :=
  ps.any (fun p => p.1 = k)

/-- A list is a prefix of itself, in the executable `isPrefixOf` sense. -/
theorem isPrefixOf_self (l : List Char) : l.isPrefixOf l = true := by
  induction l with
  | nil => rfl
  | cons c cs ih => simp [List.isPrefixOf, ih]

/-- String append concatenates the underlying character lists. -/
theorem str_data_append (p s : String) : (p ++ s).data = p.data ++ s.data := by
  cases p; cases s; rfl

/-- A string contains any suffix it ends with. -/
theorem strContains_append_right (p s : String) : strContains (p ++ s) s = true := by
  have hd : (p ++ s).data = p.data ++ s.data := str_data_append p s
  simp only [strContains, List.any_eq_true]
  refine ⟨p.data.length, ?_, ?_⟩
  · rw [List.mem_range, hd, List.length_append]
    omega
  · rw [hd, List.drop_left]
    exact isPrefixOf_self _

/-- Appending the empty string is the identity. -/
theorem str_append_empty (s : String) : s ++ "" = s := by
  cases s with
  | mk data => show String.mk (data ++ []) = String.mk data; rw [List.append_nil]

/-- The parser yields nothing in value position when only whitespace is
left. -/
theorem parseF_value_ws_nil (fuel : Nat) (cs : List Char) (h : skipWs cs = []) :
    parseF fuel PMode.value cs = none := by
  cases fuel with
  | zero => rfl
  | succ n => simp [parseF, h]

/-- A text of nothing but whitespace is not valid JSON: `JSON.parse`
fails on it. -/
theorem jsonParse_ws_none (s : String) (h : s.data.all jsonWs = true) : jsonParse s = none := by
  have hskip : skipWs s.data = [] := by
    unfold skipWs
    rw [List.dropWhile_eq_nil_iff]
    intro x hx
    exact List.all_eq_true.mp h x hx
  unfold jsonParse
  rw [parseF_value_ws_nil _ _ hskip]

/-- C5: for a finding whose row payload is the string `'\x7b"x":1\x7d'` the
row formatter produces the two-space-indented pretty-printed object, and
for the non-JSON string payload `"oops"` it returns the raw string
unchanged. -/
theorem c5_row_formatter_pretty_print_and_fallback :
    formatJson (JsonVal.str "\x7b\"x\":1\x7d") = "\x7b\n  \"x\": 1\n\x7d" ∧
    formatJson (JsonVal.str "oops") = "oops" :=
  ⟨rfl, rfl⟩

/-- C1: every transport operation issues exactly one request; a non-2xx
response makes it throw an error whose message contains the HTTP status
text, and a 2xx response makes it succeed without error. -/
theorem c1_transport_single_attempt_fail_fast
    (st : Nat) (sx : String) (limit : Option Nat) (cursor : Option String)
    (lr : ListRunsResponse) (gr : GetRunResponse) (cr cr2 : CreateRunResponse)
    (rows : List JsonVal) (ex ex2 : Option Bool) (file : FileBlob) (blob : String)
    (rid rid2 : String) :
    ((listRuns limit cursor ⟨st, sx, lr⟩).1.length = 1 ∧
     (getRun rid ⟨st, sx, gr⟩).1.length = 1 ∧
     (createRunFromRows rows ex ⟨st, sx, cr⟩).1.length = 1 ∧
     (createRunFromFile file ex2 ⟨st, sx, cr2⟩).1.length = 1 ∧
     (exportRunCsv rid2 ⟨st, sx, blob⟩).requests.length = 1) ∧
    (respOk st = false →
      (∃ m, (listRuns limit cursor ⟨st, sx, lr⟩).2 = Except.error m ∧ strContains m sx = true) ∧
      (∃ m, (getRun rid ⟨st, sx, gr⟩).2 = Except.error m ∧ strContains m sx = true) ∧
      (∃ m, (createRunFromRows rows ex ⟨st, sx, cr⟩).2 = Except.error m ∧ strContains m sx = true) ∧
      (∃ m, (createRunFromFile file ex2 ⟨st, sx, cr2⟩).2 = Except.error m ∧ strContains m sx = true) ∧
      (∃ m, (exportRunCsv rid2 ⟨st, sx, blob⟩).result = Except.error m ∧ strContains m sx = true)) ∧
    (respOk st = true →
      (listRuns limit cursor ⟨st, sx, lr⟩).2 = Except.ok lr ∧
      (getRun rid ⟨st, sx, gr⟩).2 = Except.ok gr ∧
      (createRunFromRows rows ex ⟨st, sx, cr⟩).2 = Except.ok cr ∧
      (createRunFromFile file ex2 ⟨st, sx, cr2⟩).2 = Except.ok cr2 ∧
      (exportRunCsv rid2 ⟨st, sx, blob⟩).result = Except.ok ()) := by
  refine ⟨⟨rfl, rfl, rfl, rfl, ?_⟩, fun h => ?_, fun h => ?_⟩
  · cases hb : respOk st <;> simp [exportRunCsv, hb]
  · exact ⟨⟨"Failed to list runs: " ++ sx, by simp [listRuns, h], strContains_append_right _ _⟩,
      ⟨"Failed to get run: " ++ sx, by simp [getRun, h], strContains_append_right _ _⟩,
      ⟨"Failed to create run: " ++ sx, by simp [createRunFromRows, h], strContains_append_right _ _⟩,
      ⟨"Failed to create run from file: " ++ sx, by simp [createRunFromFile, h],
        strContains_append_right _ _⟩,
      ⟨"Failed to export CSV: " ++ sx, by simp [exportRunCsv, h], strContains_append_right _ _⟩⟩
  · exact ⟨by simp [listRuns, h], by simp [getRun, h], by simp [createRunFromRows, h],
      by simp [createRunFromFile, h], by simp [exportRunCsv, h]⟩

/-- Witness for C1 at a concrete 404 and a concrete 200 response. -/
theorem c1_transport_single_attempt_fail_fast_witness :
    (listRuns none none ⟨404, "Not Found", ⟨true, none, []⟩⟩).1.length = 1 ∧
    (∃ m, (listRuns none none ⟨404, "Not Found", ⟨true, none, []⟩⟩).2 = Except.error m ∧
      strContains m "Not Found" = true) ∧
    (listRuns none none ⟨200, "OK", ⟨true, none, []⟩⟩).2 = Except.ok ⟨true, none, []⟩ := by
  have h404 := c1_transport_single_attempt_fail_fast 404 "Not Found" none none
    ⟨true, none, []⟩ ⟨true, ⟨"r1", "t", none, none, none, none, none, none⟩⟩
    ⟨true, "r1"⟩ ⟨true, "r1"⟩ [] none none ⟨"f.csv", "a,b"⟩ "blob" "r1" "r1"
  have h200 := c1_transport_single_attempt_fail_fast 200 "OK" none none
    ⟨true, none, []⟩ ⟨true, ⟨"r1", "t", none, none, none, none, none, none⟩⟩
    ⟨true, "r1"⟩ ⟨true, "r1"⟩ [] none none ⟨"f.csv", "a,b"⟩ "blob" "r1" "r1"
  exact ⟨h404.1.1, (h404.2.1 (by decide)).1, (h200.2.2 (by decide)).1⟩

/-- C6 counterexample: the claim says the query string carries `limit` and
`cursor` exactly when the arguments are supplied, but the source guards the
appends with JavaScript truthiness, so the supplied values `limit = 0` and
`cursor = ""` produce no parameter at all and a bare URL. -/
theorem c6_counterexample :
    hasParam (listRunsParams (some 0) none) "limit" = false ∧
    hasParam (listRunsParams none (some "")) "cursor" = false ∧
    listRunsUrl (some 0) (some "") = "http://localhost:8787/api/v1/runs" := by
  refine ⟨rfl, rfl, ?_⟩
  show API_URL ++ "/runs" ++ "" = _
  rw [str_append_empty]
  rfl

/-- C6 (amended): the request carries the `limit` parameter exactly when a
truthy (nonzero) limit was supplied and the `cursor` parameter exactly when
a truthy (nonempty) cursor was supplied; when no truthy argument is
supplied the URL has no query string at all. -/
theorem c6_query_string_truthy_params (limit : Option Nat) (cursor : Option String) :
    (hasParam (listRunsParams limit cursor) "limit" = true ↔ ∃ l, limit = some l ∧ l ≠ 0) ∧
    (hasParam (listRunsParams limit cursor) "cursor" = true ↔ ∃ c, cursor = some c ∧ c ≠ "") ∧
    ((limit = none ∨ limit = some 0) → (cursor = none ∨ cursor = some "") →
      listRunsUrl limit cursor = API_URL ++ "/runs") := by
  refine ⟨?_, ?_, ?_⟩
  · rcases limit with _ | l <;> rcases cursor with _ | c
    · simp [hasParam, listRunsParams]
    · by_cases hc : c = "" <;> simp [hasParam, listRunsParams, hc]
    · by_cases hl : l = 0 <;> simp [hasParam, listRunsParams, hl]
    · by_cases hl : l = 0 <;> by_cases hc : c = "" <;> simp [hasParam, listRunsParams, hl, hc]
  · rcases limit with _ | l <;> rcases cursor with _ | c
    · simp [hasParam, listRunsParams]
    · by_cases hc : c = "" <;> simp [hasParam, listRunsParams, hc]
    · by_cases hl : l = 0 <;> simp [hasParam, listRunsParams, hl]
    · by_cases hl : l = 0 <;> by_cases hc : c = "" <;> simp [hasParam, listRunsParams, hl, hc]
  · intro h1 h2
    have hp : listRunsParams limit cursor = [] := by
      rcases h1 with rfl | rfl <;> rcases h2 with rfl | rfl <;> simp [listRunsParams]
    rw [listRunsUrl, hp]
    show API_URL ++ "/runs" ++ "" = _
    rw [str_append_empty]

/-- Witness for C6 (amended) at a bare call and at a truthy call. -/
theorem c6_query_string_truthy_params_witness :
    listRunsUrl none none = API_URL ++ "/runs" ∧
    hasParam (listRunsParams (some 20) (some "abc")) "limit" = true ∧
    hasParam (listRunsParams (some 20) (some "abc")) "cursor" = true := by
  have h0 := c6_query_string_truthy_params none none
  have h1 := c6_query_string_truthy_params (some 20) (some "abc")
  exact ⟨h0.2.2 (Or.inl rfl) (Or.inl rfl), h1.1.mpr ⟨20, rfl, by decide⟩,
    h1.2.1.mpr ⟨"abc", rfl, by decide⟩⟩

/-- C2 counterexample: a fetched page that carries a `nextCursor` but no
runs leaves the accumulated run list empty, so the view renders the
"No runs yet" empty state and offers no load-more control — refuting the
claimed iff, which asserts the control is offered whenever the most recent
page included a `nextCursor`. -/
theorem c2_counterexample :
    (([⟨true, some "c1", []⟩] : List ListRunsResponse).getLast
      (List.cons_ne_nil _ _)).nextCursor = some "c1" ∧
    showLoadMore [⟨true, some "c1", []⟩] = false :=
  ⟨rfl, rfl⟩

/-- C2 (amended): the load-more control is offered exactly when the
accumulated flattened run list is nonempty and the most recently fetched
page carried a `nextCursor` (with no runs the view shows "No runs yet"
without the control); a load-more action invokes the query function so
that `listRuns` receives the limit 20 and exactly that cursor, and without
a cursor no fetch is made. -/
theorem c2_load_more_nonempty_iff_next_cursor (pages : List ListRunsResponse) (h : pages ≠ []) :
    (showLoadMore pages = true ↔
      (flattenRuns pages ≠ [] ∧ ∃ cur, (pages.getLast h).nextCursor = some cur)) ∧
    (∀ cur, (pages.getLast h).nextCursor = some cur →
      fetchNextPageArgs pages = some (some 20, some cur)) ∧
    ((pages.getLast h).nextCursor = none → fetchNextPageArgs pages = none) := by
  have hlast : pages.getLast? = some (pages.getLast h) := List.getLast?_eq_getLast pages h
  refine ⟨?_, ?_, ?_⟩
  · rw [showLoadMore]
    by_cases he : (flattenRuns pages).length = 0
    · rw [if_pos he]
      simp [List.length_eq_zero.mp he]
    · rw [if_neg he]
      have hne : flattenRuns pages ≠ [] := by
        intro hnil
        exact he (by rw [hnil]; rfl)
      rw [hasNextPage, hlast]
      simp [getNextPageParam, Option.isSome_iff_exists, hne]
  · intro cur hcur
    simp [fetchNextPageArgs, hlast, getNextPageParam, hcur, homeQueryArgs]
  · intro hnone
    simp [fetchNextPageArgs, hlast, getNextPageParam, hnone]

/-- Witness for C2 (amended) at a one-page sequence holding a run and a
cursor, and at one holding a run but no cursor. -/
theorem c2_load_more_nonempty_iff_next_cursor_witness :
    showLoadMore [⟨true, some "c1", [⟨"a", "t", none, none, none, none, none, none⟩]⟩] = true ∧
    fetchNextPageArgs [⟨true, some "c1", [⟨"a", "t", none, none, none, none, none, none⟩]⟩] =
      some (some 20, some "c1") ∧
    fetchNextPageArgs [⟨true, none, [⟨"a", "t", none, none, none, none, none, none⟩]⟩] = none := by
  have h1 := c2_load_more_nonempty_iff_next_cursor
    [⟨true, some "c1", [⟨"a", "t", none, none, none, none, none, none⟩]⟩] (List.cons_ne_nil _ _)
  have h2 := c2_load_more_nonempty_iff_next_cursor
    [⟨true, none, [⟨"a", "t", none, none, none, none, none, none⟩]⟩] (List.cons_ne_nil _ _)
  exact ⟨h1.1.mpr ⟨by simp [flattenRuns], ⟨"c1", rfl⟩⟩, h1.2.1 "c1" rfl, h2.2.2 rfl⟩

/-- C3 counterexample: pairwise disjointness of the pages does not rule out
a duplicate inside a single page, so the claimed precondition is too weak.
With the single page whose runs repeat the identifier `"a"`, the pages are
(vacuously) pairwise disjoint yet the flattened identifier sequence has a
duplicate. -/
theorem c3_counterexample :
    (([⟨true, none, [⟨"a", "t", none, none, none, none, none, none⟩,
        ⟨"a", "t", none, none, none, none, none, none⟩]⟩] : List ListRunsResponse).map
        (fun p => p.runs.map Run.id)).Pairwise List.Disjoint ∧
    ¬ ((flattenRuns [⟨true, none, [⟨"a", "t", none, none, none, none, none, none⟩,
        ⟨"a", "t", none, none, none, none, none, none⟩]⟩]).map Run.id).Nodup := by
  constructor
  · simp
  · decide

/-- C3 (amended): the flattened displayed sequence is the concatenation of
the pages in fetch order with each page's internal order unchanged, and it
has no duplicate run identifiers provided the pages are pairwise disjoint
on identifiers and each page is internally duplicate-free. -/
theorem c3_flatten_order_and_nodup (pages : List ListRunsResponse)
    (hnodup : ∀ p ∈ pages, (p.runs.map Run.id).Nodup)
    (hdisj : (pages.map (fun p => p.runs.map Run.id)).Pairwise List.Disjoint) :
    flattenRuns pages = (pages.map (fun p => p.runs)).flatten ∧
    ((flattenRuns pages).map Run.id).Nodup := by
  constructor
  · rfl
  · have h1 : (flattenRuns pages).map Run.id =
        (pages.map (fun p => p.runs.map Run.id)).flatten := by
      simp [flattenRuns, List.map_flatMap, List.flatMap_def, Function.comp_def]
    rw [h1, List.nodup_flatten]
    refine ⟨?_, hdisj⟩
    intro l hl
    obtain ⟨p, hp, rfl⟩ := List.mem_map.mp hl
    exact hnodup p hp

/-- Witness for C3 (amended) on two concrete disjoint pages. -/
theorem c3_flatten_order_and_nodup_witness :
    ((flattenRuns [⟨true, some "c", [⟨"a", "t", none, none, none, none, none, none⟩]⟩,
      ⟨true, none, [⟨"b", "t", none, none, none, none, none, none⟩]⟩]).map Run.id).Nodup := by
  have h := c3_flatten_order_and_nodup
    [⟨true, some "c", [⟨"a", "t", none, none, none, none, none, none⟩]⟩,
     ⟨true, none, [⟨"b", "t", none, none, none, none, none, none⟩]⟩]
    (by decide) (by simp [List.Disjoint])
  exact h.2

/-- C4: whenever the pasted text parses as JSON but not to an array, the
submission fails client-side — no HTTP request is issued and
`createRunFromRows` is never invoked — and the surfaced error is the
`"JSON must be an array of rows"` condition. -/
theorem c4_non_array_rejected_before_request
    (jsonText : String) (explain : Bool) (response : FetchResponse CreateRunResponse)
    (v : JsonVal) (hp : jsonParse jsonText = some v) (hna : v.isArr = false) :
    (handleJsonSubmit jsonText explain response).requests = [] ∧
    (handleJsonSubmit jsonText explain response).rowsCalls = [] ∧
    (handleJsonSubmit jsonText explain response).toast =
      ⟨"Failed to create run", some "JSON must be an array of rows", true⟩ ∧
    strContains "JSON must be an array of rows" "array of rows" = true := by
  have hws : jsonText.data.all jsonWs = false := by
    cases hb : jsonText.data.all jsonWs with
    | false => rfl
    | true => rw [jsonParse_ws_none jsonText hb] at hp; exact absurd hp (by simp)
  have hout : handleJsonSubmit jsonText explain response =
      ⟨[], [], ⟨"Failed to create run", some "JSON must be an array of rows", true⟩, none⟩ := by
    unfold handleJsonSubmit
    rw [hws]
    simp only [Bool.false_eq_true, if_false, jsParse, hp]
    cases v with
    | arr xs => simp [JsonVal.isArr] at hna
    | null => rfl
    | bool b => rfl
    | num n => rfl
    | str s => rfl
    | obj fs => rfl
  rw [hout]
  exact ⟨rfl, rfl, rfl, by decide⟩

/-- Witness for C4 at the pasted text of the claim, the object
`\x7b"a":1\x7d`. -/
theorem c4_non_array_rejected_before_request_witness :
    (handleJsonSubmit "\x7b\"a\":1\x7d" false ⟨200, "OK", ⟨true, "r9"⟩⟩).requests = [] ∧
    (handleJsonSubmit "\x7b\"a\":1\x7d" false ⟨200, "OK", ⟨true, "r9"⟩⟩).rowsCalls = [] := by
  have h := c4_non_array_rejected_before_request "\x7b\"a\":1\x7d" false ⟨200, "OK", ⟨true, "r9"⟩⟩
    (JsonVal.obj (JsonFields.cons "a" (JsonVal.num 1) JsonFields.nil)) rfl rfl
  exact ⟨h.1, h.2.1⟩

/-- C7 counterexample: with an absent identifier the view does fail at once
and issues no request, but the surfaced condition is the generic fallback
panel text, not a "no identifier provided" condition — the dedicated
`"No run ID provided"` error sits in the query function, which the
`enabled: !!runId` guard keeps from ever running. -/
theorem c7_counterexample :
    (runDetailView none ⟨200, "OK", ⟨true, ⟨"r1", "t", none, none, none, none, none, none⟩⟩⟩).1
      = [] ∧
    (runDetailView none ⟨200, "OK", ⟨true, ⟨"r1", "t", none, none, none, none, none, none⟩⟩⟩).2
      = DetailViewState.errorView "Failed to load run details" ∧
    strContains "Failed to load run details" "No run ID provided" = false := by
  exact ⟨rfl, rfl, by decide⟩

/-- C7 (amended): entered with an absent or empty run identifier, the
detail view fails immediately with the generic error panel
(`"Failed to load run details"`) — the dedicated `"No run ID provided"`
error is unreachable because the query is disabled — and issues no getRun
network request. -/
theorem c7_missing_id_generic_error_no_request
    (runId : Option String) (response : FetchResponse GetRunResponse)
    (h : runId = none ∨ runId = some "") :
    (runDetailView runId response).1 = [] ∧
    (runDetailView runId response).2 = DetailViewState.errorView "Failed to load run details" := by
  rcases h with rfl | rfl
  · exact ⟨rfl, rfl⟩
  · exact ⟨rfl, rfl⟩

/-- Witness for C7 (amended) at the empty identifier. -/
theorem c7_missing_id_generic_error_no_request_witness :
    (runDetailView (some "") ⟨500, "Internal Server Error",
      ⟨true, ⟨"r1", "t", none, none, none, none, none, none⟩⟩⟩).1 = [] :=
  (c7_missing_id_generic_error_no_request (some "")
    ⟨500, "Internal Server Error", ⟨true, ⟨"r1", "t", none, none, none, none, none, none⟩⟩⟩
    (Or.inr rfl)).1

/-- C8: when the backend answers an export with a non-success status, the
operation throws before any download side effect — no blob download is
performed — and the export handler raises the failure toast, not the
success one. -/
theorem c8_export_failure_no_download
    (runId : String) (st : Nat) (sx : String) (blob : String) (h : respOk st = false) :
    (exportRunCsv runId ⟨st, sx, blob⟩).downloads = [] ∧
    (∃ m, (exportRunCsv runId ⟨st, sx, blob⟩).result = Except.error m) ∧
    (handleExport runId ⟨st, sx, blob⟩).1.title = "Failed to export CSV" ∧
    (handleExport runId ⟨st, sx, blob⟩).1.destructive = true ∧
    (handleExport runId ⟨st, sx, blob⟩).2.downloads = [] := by
  unfold handleExport exportRunCsv
  simp [h]

/-- Witness for C8 at a 404 on a missing run. -/
theorem c8_export_failure_no_download_witness :
    (exportRunCsv "missing" ⟨404, "Not Found", ""⟩).downloads = [] ∧
    (handleExport "missing" ⟨404, "Not Found", ""⟩).1.title = "Failed to export CSV" := by
  have h := c8_export_failure_no_download "missing" 404 "Not Found" "" (by decide)
  exact ⟨h.1, h.2.2.1⟩

/-- C9: the AI-explanation panel renders exactly when the explain flag is
true and the explanation is a defined nonempty string; in particular with
`explain = true` and an empty or absent explanation it does not render. -/
theorem c9_explanation_panel_iff (run : Run) :
    showExplanationPanel run = true ↔
      (run.explain = some true ∧ ∃ s, run.explanation = some s ∧ s ≠ "") := by
  unfold showExplanationPanel
  rcases hx : run.explain with _ | b <;> rcases he : run.explanation with _ | s <;>
    simp [hx, he]

/-- C10: a finding at zero-based position `i` displays its explicit index
when present (including the explicit value 0) and falls back to `i` when
absent: the displayed index at position `i` is `index.getD i`. -/
theorem c10_display_index_explicit_or_position
    (fs : List Finding) (i : Nat) (h : i < fs.length) :
    (displayedIndices fs)[i]? = some ((fs.get ⟨i, h⟩).index.getD i) := by
  simp [displayedIndices, List.getElem?_map, List.getElem?_enum,
    List.getElem?_eq_getElem h]

/-- Witness for C10 on a three-finding list exercising an explicit index,
an absent index, and the explicit index 0. -/
theorem c10_display_index_explicit_or_position_witness :
    (displayedIndices [⟨some 5, "a", "b", none⟩, ⟨none, "a", "b", none⟩,
      ⟨some 0, "a", "b", none⟩])[0]? = some 5 ∧
    (displayedIndices [⟨some 5, "a", "b", none⟩, ⟨none, "a", "b", none⟩,
      ⟨some 0, "a", "b", none⟩])[1]? = some 1 ∧
    (displayedIndices [⟨some 5, "a", "b", none⟩, ⟨none, "a", "b", none⟩,
      ⟨some 0, "a", "b", none⟩])[2]? = some 0 :=
  ⟨c10_display_index_explicit_or_position
      [⟨some 5, "a", "b", none⟩, ⟨none, "a", "b", none⟩, ⟨some 0, "a", "b", none⟩] 0 (by decide),
   c10_display_index_explicit_or_position
      [⟨some 5, "a", "b", none⟩, ⟨none, "a", "b", none⟩, ⟨some 0, "a", "b", none⟩] 1 (by decide),
   c10_display_index_explicit_or_position
      [⟨some 5, "a", "b", none⟩, ⟨none, "a", "b", none⟩, ⟨some 0, "a", "b", none⟩] 2 (by decide)⟩

end Watchtower
